import Mathlib

/-!
Verification of the tabular-graph conversion core of
`kiara_plugin.tropy` (file `models.py`).

This development shallowly embeds the network-graph model of
`src/kiara_plugin/tropy/models.py`:

* `Table` models a columnar table (pandas `DataFrame` / arrow table):
  an ordered list of column names plus rows, each row being the
  column-name-to-value mapping that `row.to_dict()` would produce.
* `Val` models the scalar cell values (integers, strings, and the `NaN`
  that pandas inserts for missing entries when aligning columns).
* `NxGraph` models a `networkx` graph object: a concrete Python class
  tag plus insertion-ordered node and edge lists with attribute
  dictionaries, with `add_node` / `add_edge` following networkx's
  merge semantics (simple graphs overwrite the attributes of an
  existing edge between the same endpoints; multi graphs keep
  parallel edges).
* `NetworkGraph` models the `NetworkGraph` pydantic model, with the
  factories `create_from_tables` / `create_from_networkx_graph`, the
  materializer `as_networkx_graph`, the `query` surface and the
  `NetworkGraphProperties` metadata extractor.

Fallible Python code (raising exceptions) is embedded as `Except`.
-/

set_option linter.unusedVariables false

deriving instance DecidableEq for Except

namespace Tropy

/-- A scalar cell value: pandas/arrow integers and strings, plus `nan`
for the missing values that pandas inserts when aligning ragged
attribute dictionaries into a rectangular frame. -/
inductive Val where
  | nan : Val
  | i : Int → Val
  | s : String → Val
deriving DecidableEq, Repr

/-- Lexicographic comparison of character lists by code point. -/
def strLeb : List Char → List Char → Bool
  | [], _ => true
  | _ :: _, [] => false
  | a :: as, b :: bs =>
      if a.toNat < b.toNat then true
      else if b.toNat < a.toNat then false
      else strLeb as bs

theorem strLeb_total : ∀ as bs, strLeb as bs = true ∨ strLeb bs as = true
  | [], _ => Or.inl rfl
  | _ :: _, [] => Or.inr rfl
  | a :: as, b :: bs => by
      rcases Nat.lt_trichotomy a.toNat b.toNat with h | h | h
      · left; simp [strLeb, h]
      · have ih := strLeb_total as bs
        simpa [strLeb, h, Nat.lt_irrefl] using ih
      · right; simp [strLeb, h, Nat.lt_asymm h]

theorem strLeb_trans : ∀ as bs cs, strLeb as bs = true → strLeb bs cs = true →
    strLeb as cs = true
  | [], _, _ => fun _ _ => rfl
  | _ :: _, [], _ => fun h _ => by simp [strLeb] at h
  | _ :: _, _ :: _, [] => fun _ h => by simp [strLeb] at h
  | a :: as, b :: bs, c :: cs => fun h1 h2 => by
      rcases Nat.lt_trichotomy b.toNat a.toNat with hba | hba | hba
      · simp [strLeb, Nat.lt_asymm hba, hba] at h1
      · rcases Nat.lt_trichotomy c.toNat b.toNat with hcb | hcb | hcb
        · simp [strLeb, Nat.lt_asymm hcb, hcb] at h2
        · have h1' : strLeb as bs = true := by
            simpa [strLeb, hba, Nat.lt_irrefl] using h1
          have h2' : strLeb bs cs = true := by
            simpa [strLeb, hcb, Nat.lt_irrefl] using h2
          have hca : c.toNat = a.toNat := hcb.trans hba
          simpa [strLeb, hca, Nat.lt_irrefl] using strLeb_trans as bs cs h1' h2'
        · have hac : a.toNat < c.toNat := hba ▸ hcb
          simp [strLeb, hac]
      · rcases Nat.lt_trichotomy c.toNat b.toNat with hcb | hcb | hcb
        · simp [strLeb, Nat.lt_asymm hcb, hcb] at h2
        · have hac : a.toNat < c.toNat := hcb.symm ▸ hba
          simp [strLeb, hac]
        · have hac : a.toNat < c.toNat := Nat.lt_trans hba hcb
          simp [strLeb, hac]

/-- The total order used by the SQL engine's ORDER BY, restricted to our
value universe: `nan` first, then integers ascending, then strings
lexicographically by code point. -/
def Val.leb : Val → Val → Bool
  | .nan, _ => true
  | .i _, .nan => false
  | .i a, .i b => a ≤ b
  | .i _, .s _ => true
  | .s _, .nan => false
  | .s _, .i _ => false
  | .s a, .s b => strLeb a.data b.data

/-- The relation form of `Val.leb`, decidable, used for sorting. -/
def Val.vle (a b : Val) : Prop := Val.leb a b = true

instance : DecidableRel Val.vle := fun a b => instDecidableEqBool (Val.leb a b) true

instance : IsTotal Val Val.vle where
  total a b := by
    cases a <;> cases b <;> simp [Val.vle, Val.leb]
    · exact Int.le_total _ _
    · exact strLeb_total _ _

instance : IsTrans Val Val.vle where
  trans a b c hab hbc := by
    cases a <;> cases b <;> cases c <;>
      simp_all [Val.vle, Val.leb]
    · exact le_trans hab hbc
    · exact strLeb_trans _ _ _ hab hbc

abbrev ColName := String

/-- An attribute dictionary / table row: an ordered association list
from column names to values (a Python `dict`, which preserves
insertion order). -/
abbrev Attrs := List (ColName × Val)

/-- Look a key up in an attribute dictionary, `nan` when absent
(pandas fills missing entries with NaN). -/
def lookupD (r : Attrs) (c : ColName) : Val := (r.lookup c).getD .nan

/-- A columnar table: ordered column names and rows.  Each row is the
mapping from column name to cell value that `row.to_dict()` yields. -/
structure Table where
  cols : List ColName
  rows : List Attrs
deriving DecidableEq, Repr

/-- Model of `KiaraTable.num_rows` / `pa.Table.num_rows`. -/
def Table.num_rows (t : Table) : Nat := t.rows.length

/-- Model of `KiaraTable.column_names`. -/
def Table.column_names (t : Table) : List ColName := t.cols

/-- The column of values under a given name (missing cells are `nan`). -/
def Table.colValues (t : Table) (c : ColName) : List Val :=
  t.rows.map (fun r => lookupD r c)

/-- Model of `df.drop(c, axis=1)`: remove every column labelled `c`. -/
def Table.dropCol (t : Table) (c : ColName) : Table where
  cols := t.cols.filter (fun x => x ≠ c)
  rows := t.rows.map (fun r => r.filter (fun p => p.1 ≠ c))

/-- Model of the pandas rename of a single column `a` to `b`. -/
def Table.renameCol (t : Table) (a b : ColName) : Table where
  cols := t.cols.map (fun x => if x = a then b else x)
  rows := t.rows.map (fun r => r.map (fun p => if p.1 = a then (b, p.2) else p))

/-- Modelled from the spec: the fixed logical table names of the pair of
tables held by a `NetworkGraph` ("the two tables are stored as a named
pair keyed by fixed logical names \"edges\" and \"nodes\"").  The
constants live in `kiara_plugin/tropy/defaults.py`, which is not part
of the provided sources. -/
def EDGES_TABLE_NAME : String := "edges"

/-- Modelled from the spec: the fixed logical name of the nodes table,
see `EDGES_TABLE_NAME`. -/
def NODES_TABLE_NAME : String := "nodes"

/-- The four graph-type variants (`GraphType` enum in `defaults.py`;
its `.value` strings appear literally in the `Literal` type of
`NetworkGraph.graph_type` in `models.py`). -/
inductive GraphType where
  | directed
  | undirected
  | directed_multi
  | undirected_multi
deriving DecidableEq, Repr

/-- Whether the variant keeps parallel edges. -/
def GraphType.isMulti : GraphType → Bool
  | .directed_multi => true
  | .undirected_multi => true
  | _ => false

/-- The concrete Python class of a graph-like object fed to
`create_from_networkx_graph`: one of the four networkx classes, or some
other class (`other`) that is none of them. -/
inductive NxClass where
  | multiDiGraph
  | multiGraph
  | diGraph
  | graph
  | other : String → NxClass
deriving DecidableEq, Repr

/-- Model of `isinstance(g, nx.MultiDiGraph)`. -/
def NxClass.isinstMultiDiGraph : NxClass → Bool
  | .multiDiGraph => true
  | _ => false

/-- Model of `isinstance(g, nx.MultiGraph)`; `MultiDiGraph` subclasses `MultiGraph`. -/
def NxClass.isinstMultiGraph : NxClass → Bool
  | .multiDiGraph => true
  | .multiGraph => true
  | _ => false

/-- Model of `isinstance(g, nx.DiGraph)`; `MultiDiGraph` subclasses `DiGraph`. -/
def NxClass.isinstDiGraph : NxClass → Bool
  | .multiDiGraph => true
  | .diGraph => true
  | _ => false

/-- Model of `isinstance(g, nx.Graph)`; all four networkx classes subclass `Graph`. -/
def NxClass.isinstGraph : NxClass → Bool
  | .other _ => false
  | _ => true

/-- Whether the class stores parallel edges. -/
def NxClass.isMultiClass : NxClass → Bool
  | .multiDiGraph => true
  | .multiGraph => true
  | _ => false

/-- Whether the class is directed. -/
def NxClass.isDirectedClass : NxClass → Bool
  | .multiDiGraph => true
  | .diGraph => true
  | _ => false

/-- The errors the embedded operations can raise.  The Python code
raises exceptions whose messages carry the shown data: `schemaError`
models the `Exception` naming the table, the missing column and the
available columns; `unsupportedGraphType` models the `KiaraException`
for an unrecognized graph class; `queryError` models a failure of the
embedded SQL engine. -/
inductive GraphError where
  | schemaError : (table : String) → (missingColumn : ColName) →
      (available : List ColName) → GraphError
  | unsupportedGraphType : NxClass → GraphError
  | queryError : GraphError
deriving DecidableEq, Repr

/-- An in-memory networkx graph object: its concrete class, its nodes
in insertion order (each with its attribute dict), and its edges in
insertion order (source, target, attribute dict). -/
structure NxGraph where
  klass : NxClass
  nodes : List (Val × Attrs)
  edges : List (Val × Val × Attrs)
deriving DecidableEq, Repr

/-- Python `dict` assignment `d[k] = v`: overwrite in place or append. -/
def dictInsert (d : Attrs) (k : ColName) (v : Val) : Attrs :=
  if d.any (fun p => p.1 = k) then
    d.map (fun p => if p.1 = k then (k, v) else p)
  else
    d ++ [(k, v)]

/-- Python `old.update(new)`: fold every pair of `new` into `old`. -/
def dictUpdate (old new : Attrs) : Attrs :=
  new.foldl (fun d p => dictInsert d p.1 p.2) old

/-- Whether the graph already holds a node with this identifier. -/
def NxGraph.hasNode (G : NxGraph) (k : Val) : Bool :=
  G.nodes.any (fun p => p.1 = k)

/-- Model of `G.add_node(k, **attrs)`: update the attribute dict of an existing
node, or append a fresh node. -/
def NxGraph.add_node (G : NxGraph) (k : Val) (attrs : Attrs) : NxGraph :=
  { G with nodes :=
      if G.hasNode k then
        G.nodes.map (fun p => if p.1 = k then (p.1, dictUpdate p.2 attrs) else p)
      else
        G.nodes ++ [(k, attrs)] }

/-- Whether a stored edge `e` connects `u` and `v` (ignoring stored
orientation for undirected classes). -/
def edgeMatch (directed : Bool) (u v : Val) (e : Val × Val × Attrs) : Bool :=
  (decide (e.1 = u) && decide (e.2.1 = v)) ||
    (!directed && decide (e.1 = v) && decide (e.2.1 = u))

/-- Model of `G.add_edge(u, v, **attrs)`: add missing endpoint nodes (with empty
attribute dicts), then append the edge; for simple (non-multi) classes
an existing edge between the same endpoints instead gets its attribute
dict updated (networkx's last-write-wins overwrite). -/
def NxGraph.add_edge (G : NxGraph) (u v : Val) (attrs : Attrs) : NxGraph :=
  let ns1 := if G.hasNode u then G.nodes else G.nodes ++ [(u, [])]
  let ns2 := if ns1.any (fun p => p.1 = v) then ns1 else ns1 ++ [(v, [])]
  { G with
    nodes := ns2,
    edges :=
      if G.klass.isMultiClass then
        G.edges ++ [(u, v, attrs)]
      else if G.edges.any (edgeMatch G.klass.isDirectedClass u v) then
        G.edges.map (fun e =>
          if edgeMatch G.klass.isDirectedClass u v e then (e.1, e.2.1, dictUpdate e.2.2 attrs)
          else e)
      else
        G.edges ++ [(u, v, attrs)] }

/-- Model of `graph.number_of_nodes()`. -/
def NxGraph.number_of_nodes (G : NxGraph) : Nat := G.nodes.length

/-- Model of `len(graph.edges())`: each stored (for multi classes: parallel)
edge counts once. -/
def NxGraph.edgeCount (G : NxGraph) : Nat := G.edges.length

/-- The `NetworkGraph` pydantic model (a `KiaraTables` subclass): the
three configured column names, the graph type, and the named pair of
tables. -/
structure NetworkGraph where
  source_column_name : ColName
  target_column_name : ColName
  node_id_column_name : ColName
  graph_type : GraphType
  tables : List (String × Table)
deriving DecidableEq, Repr

/-- The `edges` property: the table stored under `EDGES_TABLE_NAME`. -/
def NetworkGraph.edges (g : NetworkGraph) : Table :=
  (g.tables.lookup EDGES_TABLE_NAME).getD ⟨[], []⟩

/-- The `nodes` property: the table stored under `NODES_TABLE_NAME`. -/
def NetworkGraph.nodes (g : NetworkGraph) : Table :=
  (g.tables.lookup NODES_TABLE_NAME).getD ⟨[], []⟩

/-- The `num_nodes` property (`self.nodes.num_rows`). -/
def NetworkGraph.num_nodes (g : NetworkGraph) : Nat := g.nodes.num_rows

/-- The `num_edges` property (`self.edges.num_rows`). -/
def NetworkGraph.num_edges (g : NetworkGraph) : Nat := g.edges.num_rows

/-- The node-inference step of `create_from_tables` when no nodes table
is supplied: the duckdb query `SELECT DISTINCT` of the `UNION` of the
source and target columns (aliased to the node-id column), `ORDER BY`
that column — i.e. the distinct values of both endpoint columns, sorted
ascending, as a one-column table named after the node-id column. -/
def inferNodes (edges_table : Table) (source_column_name target_column_name
    node_id_column_name : ColName) : Table where
  cols := [node_id_column_name]
  rows :=
    (List.insertionSort Val.vle
        (edges_table.colValues source_column_name ++
          edges_table.colValues target_column_name).dedup).map
      (fun v => [(node_id_column_name, v)])

/-- Model of `NetworkGraph.create_from_tables`: validate that the endpoint
columns exist on the edges table (raising otherwise), infer the nodes
table when none is supplied (else validate its id column), and
assemble the `NetworkGraph`. -/
def create_from_tables (graph_type : GraphType) (edges_table : Table)
    (nodes_table : Option Table) (source_column_name target_column_name
    node_id_column_name : ColName) : Except GraphError NetworkGraph :=
  if source_column_name ∉ edges_table.cols then
    .error (.schemaError "edges" source_column_name edges_table.cols)
  else if target_column_name ∉ edges_table.cols then
    .error (.schemaError "edges" target_column_name edges_table.cols)
  else
    match nodes_table with
    | none =>
        .ok ⟨source_column_name, target_column_name, node_id_column_name, graph_type,
          [(EDGES_TABLE_NAME, edges_table),
           (NODES_TABLE_NAME,
            inferNodes edges_table source_column_name target_column_name
              node_id_column_name)]⟩
    | some nt =>
        if node_id_column_name ∉ nt.cols then
          .error (.schemaError "nodes" node_id_column_name nt.cols)
        else
          .ok ⟨source_column_name, target_column_name, node_id_column_name, graph_type,
            [(EDGES_TABLE_NAME, edges_table), (NODES_TABLE_NAME, nt)]⟩

/-- The networkx class selected by `as_networkx_graph` for each graph
type. -/
def graphTypeClass : GraphType → NxClass
  | .directed => .diGraph
  | .undirected => .graph
  | .directed_multi => .multiDiGraph
  | .undirected_multi => .multiGraph

/-- Model of `NetworkGraph.as_networkx_graph`: instantiate the class matching
`graph_type`, then `add_node(row[node_id_column], **row.to_dict())` for
every node row and `add_edge(row[source], row[target], **row.to_dict())`
for every edge row, in table order. -/
def NetworkGraph.as_networkx_graph (g : NetworkGraph) : NxGraph :=
  let G0 : NxGraph := ⟨graphTypeClass g.graph_type, [], []⟩
  let G1 := g.nodes.rows.foldl
    (fun G row => G.add_node (lookupD row g.node_id_column_name) row) G0
  g.edges.rows.foldl
    (fun G row =>
      G.add_edge (lookupD row g.source_column_name)
        (lookupD row g.target_column_name) row) G1

/-- The classification chain at the head of
`create_from_networkx_graph`: four `isinstance` checks in order
(multi-di, multi, di, simple), otherwise a `KiaraException`
("Invalid graph type"). -/
def classifyGraph (c : NxClass) : Except GraphError GraphType :=
  if c.isinstMultiDiGraph then .ok .directed_multi
  else if c.isinstMultiGraph then .ok .undirected_multi
  else if c.isinstDiGraph then .ok .directed
  else if c.isinstGraph then .ok .undirected
  else .error (.unsupportedGraphType c)

/-- The union of the keys of a list of attribute dicts, in order of
first appearance (the column set pandas produces when aligning row
dicts into a frame). -/
def insertKeys (acc : List ColName) (r : Attrs) : List ColName :=
  r.foldl (fun acc p => if p.1 ∈ acc then acc else acc ++ [p.1]) acc

/-- See `insertKeys`. -/
def unionKeys (rows : List Attrs) : List ColName :=
  rows.foldl insertKeys []

/-- The value of `str(uuid.uuid4())` used as the temporary source
column name (a fresh random name; theorems assume only that user data
does not mention it). -/
def tempSourceName : ColName := "df6d1b34-0a3e-4f9c-8c1d-2d1c6f1e9a01"

/-- The value of `str(uuid.uuid4())` used as the temporary target
column name. -/
def tempTargetName : ColName := "df6d1b34-0a3e-4f9c-8c1d-2d1c6f1e9a02"

/-- Model of `nx.to_pandas_edgelist(graph, source=ts, target=tt)`: one row per
stored edge, endpoint columns first, then the union of the edge
attribute keys (missing attributes become NaN). -/
def to_pandas_edgelist (G : NxGraph) (ts tt : ColName) : Table :=
  let keys := unionKeys (G.edges.map (fun e => e.2.2))
  { cols := ts :: tt :: keys,
    rows := G.edges.map (fun e =>
      (ts, e.1) :: (tt, e.2.1) :: keys.map (fun k => (k, lookupD e.2.2 k))) }

/-- The edge-frame assembly of `create_from_networkx_graph`: extract
the edge list under the temporary endpoint names; if the configured
source name already occurs as a column, drop it and rename the
temporary source column into place; then the same for the target
name.  (The renames happen only inside the collision branches, exactly
as in the source.) -/
def build_edges_df (G : NxGraph) (source_column_name target_column_name : ColName) :
    Table :=
  let df := to_pandas_edgelist G tempSourceName tempTargetName
  let df := if source_column_name ∈ df.cols then
      (df.dropCol source_column_name).renameCol tempSourceName source_column_name
    else df
  if target_column_name ∈ df.cols then
    (df.dropCol target_column_name).renameCol tempTargetName target_column_name
  else df

/-- The placeholder attribute name used for attribute-less nodes. -/
def PLACEHOLDER : ColName := "_x_placeholder_x_"

/-- The placeholder attribute value. -/
def DUMMY : Val := .s "__dummy__"

/-- The node-frame assembly of `create_from_networkx_graph`: build the
node dict (empty attribute dicts replaced by the placeholder entry),
align it into a frame indexed by node identifier, `reset_index` (which
prepends an "index" column holding the identifiers), drop the
placeholder column if present; finally, if the configured node-id name
already occurs as a column, drop the "index" column, else rename
"index" into the node-id name. -/
def build_nodes_table (G : NxGraph) (node_id_column_name : ColName) : Table :=
  let node_dict := G.nodes.map
    (fun p => (p.1, if p.2.isEmpty then [(PLACEHOLDER, DUMMY)] else p.2))
  let keys := unionKeys (node_dict.map (fun p => p.2))
  let nodes_data : Table :=
    { cols := "index" :: keys,
      rows := node_dict.map (fun p =>
        ("index", p.1) :: keys.map (fun k => (k, lookupD p.2 k))) }
  let nodes_data :=
    if PLACEHOLDER ∈ nodes_data.cols then nodes_data.dropCol PLACEHOLDER else nodes_data
  if node_id_column_name ∈ nodes_data.cols then nodes_data.dropCol "index"
  else nodes_data.renameCol "index" node_id_column_name

/-- Model of `NetworkGraph.create_from_networkx_graph`: classify the graph
object, build the edge and node frames, and delegate to
`create_from_tables`. -/
def create_from_networkx_graph (G : NxGraph) (source_column_name target_column_name
    node_id_column_name : ColName) : Except GraphError NetworkGraph :=
  match classifyGraph G.klass with
  | .error e => .error e
  | .ok graph_type =>
      create_from_tables graph_type
        (build_edges_df G source_column_name target_column_name)
        (some (build_nodes_table G node_id_column_name))
        source_column_name target_column_name node_id_column_name

/-- The query strings the embedded engine is exercised with here. -/
inductive SqlQuery where
  | selectCountStar : (rel : String) → SqlQuery
deriving DecidableEq, Repr

/-- Modelled from the spec: the external SQL engine (duckdb, a black
box per the spec's external-interface section): `execute(sqlText,
boundRelations) -> table`; `SELECT COUNT(*) FROM r` on a bound
relation `r` yields a one-cell table holding its row count, and
referencing an unbound relation fails with a `queryError`. -/
def runQueryEngine (bound : List (String × Table)) : SqlQuery → Except GraphError Table
  | .selectCountStar rel =>
      match bound.lookup rel with
      | some t => .ok ⟨["count_star()"], [[("count_star()", Val.i t.num_rows)]]⟩
      | none => .error .queryError

/-- Model of `NetworkGraph.query`: bind the current edges and nodes tables to
the fixed relation names "edges" and "nodes" (the local-variable
replacement scan of the embedded engine), execute, and return the
engine's result unchanged. -/
def NetworkGraph.query (g : NetworkGraph) (q : SqlQuery) : Except GraphError Table :=
  runQueryEngine [("edges", g.edges), ("nodes", g.nodes)] q

/-- The `NetworkGraphProperties` metadata record. -/
structure NetworkGraphProperties where
  number_of_nodes : Nat
  number_of_edges : Nat
deriving DecidableEq, Repr

/-- Model of `NetworkGraphProperties.create_value_metadata`: materialize the
networkx graph and read `graph.number_of_nodes()` and
`len(graph.edges())` from it. -/
def create_value_metadata (g : NetworkGraph) : NetworkGraphProperties :=
  let graph := g.as_networkx_graph
  ⟨graph.number_of_nodes, graph.edgeCount⟩

/-! Concrete fixtures used by witnesses and counterexamples. -/

/-- A three-edge edges table over string identifiers (the spec's
example scenario). -/
def exEdgesABC : Table :=
  ⟨["source", "target"],
   [[("source", .s "A"), ("target", .s "B")],
    [("source", .s "B"), ("target", .s "C")],
    [("source", .s "A"), ("target", .s "C")]]⟩

/-- The `NetworkGraph` produced by `create_from_tables` from a
zero-row edges table (nodes inferred). -/
def zeroEdgeT : NetworkGraph :=
  ⟨"source", "target", "id", .undirected,
   [("edges", ⟨["source", "target"], []⟩), ("nodes", ⟨["id"], []⟩)]⟩

/-- A directed networkx graph whose single edge carries an attribute
colliding with the source column name but none colliding with the
target column name. -/
def oneSidedCollisionG : NxGraph :=
  ⟨.diGraph, [(.i 1, []), (.i 2, [])], [(.i 1, .i 2, [("source", .i 99)])]⟩

/-- A directed networkx graph whose single edge carries attributes
colliding with both endpoint column names. -/
def twoSidedCollisionG : NxGraph :=
  ⟨.diGraph, [(.i 1, []), (.i 2, [])],
   [(.i 1, .i 2, [("source", .i 99), ("target", .i 98)])]⟩

/-- A simple undirected graph whose edges table repeats the same
endpoint pair twice. -/
def dupEdgeT : NetworkGraph :=
  ⟨"s", "t", "id", .undirected,
   [("edges", ⟨["s", "t"],
      [[("s", .i 1), ("t", .i 2)], [("s", .i 1), ("t", .i 2)]]⟩),
    ("nodes", ⟨["id"], [[("id", .i 1)], [("id", .i 2)]]⟩)]⟩

/-- A multi-undirected graph with one extra node column, used to show
that `as_networkx_graph` keeps the id column inside the node attribute
map (and the endpoint columns inside the edge attribute map). -/
def idAttrT : NetworkGraph :=
  ⟨"s", "t", "id", .undirected_multi,
   [("edges", ⟨["s", "t"], [[("s", .i 1), ("t", .i 2)]]⟩),
    ("nodes", ⟨["id", "a"], [[("id", .i 1), ("a", .i 5)], [("id", .i 2), ("a", .i 6)]]⟩)]⟩

/-- A simple graph whose nodes carry an attribute literally named
"id", the user-chosen node-id column name, and whose edge carries
attributes colliding with both endpoint column names (so that the
rebuild succeeds end to end). -/
def idCollisionG : NxGraph :=
  ⟨.graph, [(.i 1, [("id", .i 999)]), (.i 2, [("id", .i 888)])],
   [(.i 1, .i 2, [("source", .i 7), ("target", .i 8)])]⟩

/-! Theorems settling the claims, with their supporting lemmas. -/

theorem colValues_inferNodes (E : Table) (s t nid : ColName) :
    (inferNodes E s t nid).colValues nid =
      List.insertionSort Val.vle (E.colValues s ++ E.colValues t).dedup := by
  simp only [inferNodes, Table.colValues, lookupD, List.map_map]
  have hid : ((fun r => (List.lookup nid r).getD Val.nan) ∘ fun v => [(nid, v)]) = id := by
    funext v
    simp [List.lookup]
  rw [hid, List.map_id]

/-- C2: when no nodes table is supplied, `create_from_tables` infers a
nodes table with exactly one column, named after the node-id column,
whose rows are the distinct union of the source- and target-column
values, sorted ascending in the value order; the construction is a
pure function of the edges table, hence deterministic. -/
theorem inferNodes_distinct_sorted_union (E : Table) (s t nid : ColName) :
    (inferNodes E s t nid).cols = [nid] ∧
    List.Sorted Val.vle ((inferNodes E s t nid).colValues nid) ∧
    ((inferNodes E s t nid).colValues nid).Nodup ∧
    (∀ v, v ∈ (inferNodes E s t nid).colValues nid ↔
      v ∈ E.colValues s ∨ v ∈ E.colValues t) ∧
    (∀ E2, E2 = E → inferNodes E2 s t nid = inferNodes E s t nid) := by
  refine ⟨rfl, ?_, ?_, fun v => ?_, fun E2 h => by rw [h]⟩
  · rw [colValues_inferNodes]
    exact List.sorted_insertionSort _ _
  · rw [colValues_inferNodes]
    exact ((List.perm_insertionSort _ _).nodup_iff).mpr (List.nodup_dedup _)
  · rw [colValues_inferNodes, (List.perm_insertionSort _ _).mem_iff, List.mem_dedup,
      List.mem_append]

theorem inferNodes_distinct_sorted_union_witness :
    inferNodes exEdgesABC "source" "target" "id" =
      inferNodes exEdgesABC "source" "target" "id" ∧
    Val.s "A" ∈ (inferNodes exEdgesABC "source" "target" "id").colValues "id" :=
  ⟨(inferNodes_distinct_sorted_union exEdgesABC "source" "target" "id").2.2.2.2 exEdgesABC rfl,
   ((inferNodes_distinct_sorted_union exEdgesABC "source" "target" "id").2.2.2.1
       (Val.s "A")).mpr (Or.inl (by decide))⟩

/-- C3: `create_from_tables` fails with a schema error naming the
missing column and listing the table's actual columns whenever the
edges table lacks the source or target column, or a supplied nodes
table lacks the node-id column; the error is returned instead of a
graph (construction is atomic). -/
theorem create_from_tables_schema_errors (gt : GraphType) (E : Table)
    (N : Option Table) (s t nid : ColName) :
    (s ∉ E.cols → create_from_tables gt E N s t nid =
      .error (.schemaError "edges" s E.cols)) ∧
    (s ∈ E.cols → t ∉ E.cols → create_from_tables gt E N s t nid =
      .error (.schemaError "edges" t E.cols)) ∧
    (∀ nt, s ∈ E.cols → t ∈ E.cols → nid ∉ nt.cols →
      create_from_tables gt E (some nt) s t nid =
        .error (.schemaError "nodes" nid nt.cols)) := by
  refine ⟨fun h => ?_, fun h1 h2 => ?_, fun nt h1 h2 h3 => ?_⟩
  · simp [create_from_tables, h]
  · simp [create_from_tables, h1, h2]
  · simp [create_from_tables, h1, h2, h3]

theorem create_from_tables_schema_errors_witness :
    create_from_tables .directed ⟨["a", "b"], []⟩ none "source" "target" "id" =
      .error (.schemaError "edges" "source" ["a", "b"]) :=
  (create_from_tables_schema_errors .directed ⟨["a", "b"], []⟩ none "source" "target"
    "id").1 (by decide)

/-- C5: `create_from_networkx_graph` classifies the graph object by
its concrete class into exactly one of the four graph types
(multi-directed, multi-undirected, directed, undirected, checked in
that order), and any object of a class that is none of the four
recognized networkx classes makes it fail with the
unsupported-graph-type error. -/
theorem classifyGraph_topology :
    classifyGraph .multiDiGraph = .ok .directed_multi ∧
    classifyGraph .multiGraph = .ok .undirected_multi ∧
    classifyGraph .diGraph = .ok .directed ∧
    classifyGraph .graph = .ok .undirected ∧
    (∀ name, classifyGraph (.other name) =
      .error (.unsupportedGraphType (.other name))) ∧
    (∀ (G : NxGraph) (s t nid : ColName) (name : String), G.klass = .other name →
      create_from_networkx_graph G s t nid =
        .error (.unsupportedGraphType (.other name))) := by
  refine ⟨rfl, rfl, rfl, rfl, fun name => rfl, fun G s t nid name h => ?_⟩
  have hc : classifyGraph G.klass = .error (.unsupportedGraphType (.other name)) := by
    rw [h]; rfl
  simp [create_from_networkx_graph, hc]

theorem classifyGraph_topology_witness :
    create_from_networkx_graph ⟨.other "SomeGraphLike", [], []⟩ "source" "target" "id" =
      .error (.unsupportedGraphType (.other "SomeGraphLike")) :=
  classifyGraph_topology.2.2.2.2.2 ⟨.other "SomeGraphLike", [], []⟩ "source" "target" "id"
    "SomeGraphLike" rfl

/-- C6: `query` binds the current edges and nodes tables to the fixed
relation names "edges" and "nodes", returns the engine result
unchanged, and in particular a COUNT(*) over either relation returns
exactly `num_edges` resp. `num_nodes`. -/
theorem query_binds_and_counts (g : NetworkGraph) :
    (∀ q, g.query q = runQueryEngine [("edges", g.edges), ("nodes", g.nodes)] q) ∧
    g.query (.selectCountStar "edges") =
      .ok ⟨["count_star()"], [[("count_star()", .i g.num_edges)]]⟩ ∧
    g.query (.selectCountStar "nodes") =
      .ok ⟨["count_star()"], [[("count_star()", .i g.num_nodes)]]⟩ :=
  ⟨fun _ => rfl, rfl, rfl⟩

/-- C8: a zero-row edges table (with the endpoint columns present and
no nodes table supplied) constructs successfully, and the inferred
nodes table has zero rows and exactly the single node-id column. -/
theorem create_from_tables_zero_edges (gt : GraphType) (E : Table) (s t nid : ColName)
    (h0 : E.rows = []) (hs : s ∈ E.cols) (ht : t ∈ E.cols) :
    create_from_tables gt E none s t nid =
      .ok ⟨s, t, nid, gt, [(EDGES_TABLE_NAME, E), (NODES_TABLE_NAME, ⟨[nid], []⟩)]⟩ := by
  simp [create_from_tables, hs, ht, inferNodes, Table.colValues, h0]

theorem create_from_tables_zero_edges_witness :
    create_from_tables .undirected ⟨["source", "target"], []⟩ none "source" "target" "id" =
      .ok ⟨"source", "target", "id", .undirected,
        [(EDGES_TABLE_NAME, ⟨["source", "target"], []⟩),
         (NODES_TABLE_NAME, ⟨["id"], []⟩)]⟩ :=
  create_from_tables_zero_edges .undirected ⟨["source", "target"], []⟩ "source" "target" "id"
    rfl (by decide) (by decide)

/-- C1 (code bug): the round trip breaks on the zero-edge graph.  The
first conjunct shows `create_from_tables` builds `zeroEdgeT` from a
zero-row edges table; the second shows that feeding
`zeroEdgeT.as_networkx_graph` back into `create_from_networkx_graph`
with the same column names raises the missing-source-column schema
error (the temporary endpoint columns are renamed into place only when
a name collision exists, and a zero-edge edge list has no attribute
columns to collide). -/
theorem roundtrip_zero_edge_failure :
    create_from_tables .undirected ⟨["source", "target"], []⟩ none "source" "target" "id" =
      .ok zeroEdgeT ∧
    create_from_networkx_graph zeroEdgeT.as_networkx_graph "source" "target" "id" =
      .error (.schemaError "edges" "source" [tempSourceName, tempTargetName]) :=
  ⟨by decide, by decide⟩

theorem edges_add_node (G : NxGraph) (k : Val) (a : Attrs) :
    (G.add_node k a).edges = G.edges := rfl

theorem edges_foldl_add_node (f : Attrs → Val) :
    ∀ (rows : List Attrs) (G : NxGraph),
      (rows.foldl (fun G r => G.add_node (f r) r) G).edges = G.edges
  | [], G => rfl
  | r :: rs, G => edges_foldl_add_node f rs (G.add_node (f r) r)

theorem edges_length_add_edge (G : NxGraph) (u v : Val) (a : Attrs) :
    (G.add_edge u v a).edges.length ≤ G.edges.length + 1 := by
  simp only [NxGraph.add_edge]
  split_ifs <;> simp

theorem edges_length_foldl_add_edge (fs ft : Attrs → Val) :
    ∀ (rows : List Attrs) (G : NxGraph),
      (rows.foldl (fun G r => G.add_edge (fs r) (ft r) r) G).edges.length ≤
        G.edges.length + rows.length
  | [], G => le_refl _
  | r :: rs, G => by
      have h1 := edges_length_foldl_add_edge fs ft rs (G.add_edge (fs r) (ft r) r)
      have h2 := edges_length_add_edge G (fs r) (ft r) r
      calc ((r :: rs).foldl (fun G r => G.add_edge (fs r) (ft r) r) G).edges.length
          = (rs.foldl (fun G r => G.add_edge (fs r) (ft r) r)
              (G.add_edge (fs r) (ft r) r)).edges.length := rfl
        _ ≤ (G.add_edge (fs r) (ft r) r).edges.length + rs.length := h1
        _ ≤ (G.edges.length + 1) + rs.length := Nat.add_le_add_right h2 _
        _ = G.edges.length + (r :: rs).length := by simp; omega

/-- C7: the statistics accessor reads both counts from the
materialized graph object; the graph object's edge count never exceeds
the edges table's row count, and at the concrete simple graph
`dupEdgeT` (whose table repeats an endpoint pair) it is strictly
smaller — so the reported count is the post-merge count, not the row
count. -/
theorem create_value_metadata_from_graph_counts (g : NetworkGraph) :
    create_value_metadata g =
      ⟨g.as_networkx_graph.number_of_nodes, g.as_networkx_graph.edgeCount⟩ ∧
    (create_value_metadata g).number_of_edges ≤ g.num_edges ∧
    (create_value_metadata dupEdgeT).number_of_edges < dupEdgeT.num_edges := by
  refine ⟨rfl, ?_, by decide⟩
  show g.as_networkx_graph.edges.length ≤ g.edges.rows.length
  unfold NetworkGraph.as_networkx_graph
  dsimp only
  refine le_trans (edges_length_foldl_add_edge _ _ _ _) ?_
  rw [edges_foldl_add_node]
  simp

/-- The key set of an attribute dictionary / row. -/
def keysOf (d : Attrs) : List ColName := d.map Prod.fst

/-- The graph holds a node with identifier `k` whose attribute dict has
an entry for every column in `cs`. -/
def nodeHasAttrs (G : NxGraph) (k : Val) (cs : List ColName) : Prop :=
  ∃ a, (k, a) ∈ G.nodes ∧ ∀ c ∈ cs, c ∈ keysOf a

/-- The graph holds an edge between `u` and `v` (orientation-sensitive
for directed classes) whose attribute dict has an entry for every
column in `cs`. -/
def edgeHasAttrs (G : NxGraph) (u v : Val) (cs : List ColName) : Prop :=
  ∃ e, e ∈ G.edges ∧ edgeMatch G.klass.isDirectedClass u v e = true ∧
    ∀ c ∈ cs, c ∈ keysOf e.2.2

theorem keysOf_dictInsert_sub (d : Attrs) (k : ColName) (v : Val) (c : ColName)
    (hc : c ∈ keysOf d) : c ∈ keysOf (dictInsert d k v) := by
  unfold dictInsert
  split
  · rcases List.mem_map.mp hc with ⟨p, hp, hpc⟩
    refine List.mem_map.mpr ⟨if p.1 = k then (k, v) else p, List.mem_map_of_mem _ hp, ?_⟩
    by_cases h : p.1 = k
    · rw [if_pos h]
      exact h ▸ hpc
    · rw [if_neg h]
      exact hpc
  · exact List.mem_map.mpr (by
      rcases List.mem_map.mp hc with ⟨p, hp, hpc⟩
      exact ⟨p, List.mem_append_left _ hp, hpc⟩)

theorem keysOf_dictInsert_self (d : Attrs) (k : ColName) (v : Val) :
    k ∈ keysOf (dictInsert d k v) := by
  unfold dictInsert
  split
  · rename_i h
    simp only [List.any_eq_true, decide_eq_true_eq] at h
    rcases h with ⟨p, hp, hpk⟩
    exact List.mem_map.mpr ⟨if p.1 = k then (k, v) else p, List.mem_map_of_mem _ hp,
      by simp [hpk]⟩
  · exact List.mem_map.mpr ⟨(k, v), List.mem_append_right _ (by simp), rfl⟩

theorem keysOf_dictUpdate_left (c : ColName) :
    ∀ (new old : Attrs), c ∈ keysOf old → c ∈ keysOf (dictUpdate old new)
  | [], _, h => h
  | p :: ps, old, h =>
      keysOf_dictUpdate_left c ps (dictInsert old p.1 p.2)
        (keysOf_dictInsert_sub old p.1 p.2 c h)

theorem keysOf_dictUpdate_right (c : ColName) :
    ∀ (new old : Attrs), c ∈ keysOf new → c ∈ keysOf (dictUpdate old new)
  | [], _, h => absurd h (List.not_mem_nil c)
  | p :: ps, old, h => by
      rcases List.mem_cons.mp h with h1 | h1
      · exact keysOf_dictUpdate_left c ps (dictInsert old p.1 p.2)
          (h1 ▸ keysOf_dictInsert_self old p.1 p.2)
      · exact keysOf_dictUpdate_right c ps (dictInsert old p.1 p.2) h1

theorem mem_ite_append {α : Type _} {x : α} {l l2 : List α} {c : Prop} [Decidable c]
    (h : x ∈ l) : x ∈ if c then l else l ++ l2 := by
  split
  · exact h
  · exact List.mem_append_left _ h

theorem nodeHasAttrs_add_node (G : NxGraph) (k0 : Val) (cs : List ColName)
    (k : Val) (a : Attrs) (h : nodeHasAttrs G k0 cs) :
    nodeHasAttrs (G.add_node k a) k0 cs := by
  rcases h with ⟨a0, ha0, hcs⟩
  unfold NxGraph.add_node
  dsimp only [nodeHasAttrs]
  split
  · by_cases hk : k0 = k
    · refine ⟨dictUpdate a0 a, ?_, fun c hc => keysOf_dictUpdate_left c a a0 (hcs c hc)⟩
      have := List.mem_map_of_mem
        (fun p => if p.1 = k then (p.1, dictUpdate p.2 a) else p) ha0
      simpa [hk] using this
    · refine ⟨a0, ?_, hcs⟩
      have := List.mem_map_of_mem
        (fun p => if p.1 = k then (p.1, dictUpdate p.2 a) else p) ha0
      simpa [hk] using this
  · exact ⟨a0, List.mem_append_left _ ha0, hcs⟩

theorem nodeHasAttrs_add_edge (G : NxGraph) (k0 : Val) (cs : List ColName)
    (u v : Val) (a : Attrs) (h : nodeHasAttrs G k0 cs) :
    nodeHasAttrs (G.add_edge u v a) k0 cs := by
  rcases h with ⟨a0, ha0, hcs⟩
  refine ⟨a0, ?_, hcs⟩
  show (k0, a0) ∈ (G.add_edge u v a).nodes
  simp only [NxGraph.add_edge]
  exact mem_ite_append (mem_ite_append ha0)

theorem nodeHasAttrs_add_node_self (G : NxGraph) (k : Val) (a : Attrs) :
    nodeHasAttrs (G.add_node k a) k (keysOf a) := by
  unfold NxGraph.add_node
  dsimp only [nodeHasAttrs]
  split
  · rename_i h
    have h2 : ∃ p ∈ G.nodes, p.1 = k := by
      simpa [NxGraph.hasNode, List.any_eq_true] using h
    rcases h2 with ⟨p, hp, hpk⟩
    refine ⟨dictUpdate p.2 a, ?_, fun c hc => keysOf_dictUpdate_right c a p.2 hc⟩
    have := List.mem_map_of_mem
      (fun p => if p.1 = k then (p.1, dictUpdate p.2 a) else p) hp
    simpa [hpk] using this
  · exact ⟨a, List.mem_append_right _ (by simp), fun c hc => hc⟩

theorem edgeHasAttrs_add_node (G : NxGraph) (u v : Val) (cs : List ColName)
    (k : Val) (a : Attrs) (h : edgeHasAttrs G u v cs) :
    edgeHasAttrs (G.add_node k a) u v cs := h

theorem edgeHasAttrs_add_edge (G : NxGraph) (u0 v0 : Val) (cs : List ColName)
    (u v : Val) (a : Attrs) (h : edgeHasAttrs G u0 v0 cs) :
    edgeHasAttrs (G.add_edge u v a) u0 v0 cs := by
  rcases h with ⟨e, he, hm, hcs⟩
  dsimp only [edgeHasAttrs]
  simp only [NxGraph.add_edge]
  split
  · exact ⟨e, List.mem_append_left _ he, hm, hcs⟩
  · split
    · by_cases hme : edgeMatch G.klass.isDirectedClass u v e = true
      · refine ⟨(e.1, e.2.1, dictUpdate e.2.2 a), ?_, ?_,
          fun c hc => keysOf_dictUpdate_left c a e.2.2 (hcs c hc)⟩
        · have := List.mem_map_of_mem (fun e =>
            if edgeMatch G.klass.isDirectedClass u v e then (e.1, e.2.1, dictUpdate e.2.2 a)
            else e) he
          simpa [hme] using this
        · simpa [edgeMatch] using hm
      · refine ⟨e, ?_, hm, hcs⟩
        have := List.mem_map_of_mem (fun e =>
          if edgeMatch G.klass.isDirectedClass u v e then (e.1, e.2.1, dictUpdate e.2.2 a)
          else e) he
        simpa [hme] using this
    · exact ⟨e, List.mem_append_left _ he, hm, hcs⟩

theorem edgeHasAttrs_add_edge_self (G : NxGraph) (u v : Val) (a : Attrs) :
    edgeHasAttrs (G.add_edge u v a) u v (keysOf a) := by
  dsimp only [edgeHasAttrs]
  simp only [NxGraph.add_edge]
  split
  · exact ⟨(u, v, a), List.mem_append_right _ (by simp), by simp [edgeMatch],
      fun c hc => hc⟩
  · split
    · rename_i hmulti hany
      have h2 : ∃ e ∈ G.edges, edgeMatch G.klass.isDirectedClass u v e = true := by
        simpa [List.any_eq_true] using hany
      rcases h2 with ⟨e, he, hme⟩
      refine ⟨(e.1, e.2.1, dictUpdate e.2.2 a), ?_, ?_,
        fun c hc => keysOf_dictUpdate_right c a e.2.2 hc⟩
      · have := List.mem_map_of_mem (fun e =>
          if edgeMatch G.klass.isDirectedClass u v e then (e.1, e.2.1, dictUpdate e.2.2 a)
          else e) he
        simpa [hme] using this
      · simpa [edgeMatch] using hme
    · exact ⟨(u, v, a), List.mem_append_right _ (by simp), by simp [edgeMatch],
        fun c hc => hc⟩

theorem foldl_preserve {α β : Type _} (P : β → Prop) (f : β → α → β)
    (hstep : ∀ b a, P b → P (f b a)) :
    ∀ (l : List α) (b : β), P b → P (l.foldl f b)
  | [], _, h => h
  | a :: l, b, h => foldl_preserve P f hstep l (f b a) (hstep b a h)

theorem foldl_mem_establish {α β : Type _} (P : α → β → Prop) (f : β → α → β)
    (hstep : ∀ b a a2, P a2 b → P a2 (f b a))
    (hinit : ∀ b a, P a (f b a)) :
    ∀ (l : List α) (b : β) (a : α), a ∈ l → P a (l.foldl f b)
  | [], _, _, h => absurd h (List.not_mem_nil _)
  | a0 :: l, b, a, h => by
      rcases List.mem_cons.mp h with rfl | h2
      · exact foldl_preserve (P a) f (fun b x => hstep b x a) l (f b a) (hinit b a)
      · exact foldl_mem_establish P f hstep hinit l (f b a0) a h2

/-- C4 (amended): for every node row, the materialized graph holds a
node keyed by the row's node-id value whose attribute map has an entry
for every column of the row — including the id column itself; for
every edge row it holds an edge between the row's source and target
values whose attribute map has an entry for every column of the row —
including both endpoint columns.  (The code passes the full
`row.to_dict()` as attributes; nothing is excluded.) -/
theorem as_networkx_graph_row_attrs (g : NetworkGraph) :
    (∀ r ∈ g.nodes.rows,
      nodeHasAttrs g.as_networkx_graph (lookupD r g.node_id_column_name) (keysOf r)) ∧
    (∀ r ∈ g.edges.rows,
      edgeHasAttrs g.as_networkx_graph (lookupD r g.source_column_name)
        (lookupD r g.target_column_name) (keysOf r)) := by
  unfold NetworkGraph.as_networkx_graph
  dsimp only
  constructor
  · intro r hr
    have hnode := foldl_mem_establish
      (fun r G => nodeHasAttrs G (lookupD r g.node_id_column_name) (keysOf r))
      (fun G row => G.add_node (lookupD row g.node_id_column_name) row)
      (fun G row r2 h => nodeHasAttrs_add_node G _ _ _ row h)
      (fun G row => nodeHasAttrs_add_node_self G _ row)
      g.nodes.rows ⟨graphTypeClass g.graph_type, [], []⟩ r hr
    exact foldl_preserve
      (nodeHasAttrs · (lookupD r g.node_id_column_name) (keysOf r))
      (fun G row => G.add_edge (lookupD row g.source_column_name)
        (lookupD row g.target_column_name) row)
      (fun G row h => nodeHasAttrs_add_edge G _ _ _ _ row h)
      g.edges.rows _ hnode
  · intro r hr
    exact foldl_mem_establish
      (fun r G => edgeHasAttrs G (lookupD r g.source_column_name)
        (lookupD r g.target_column_name) (keysOf r))
      (fun G row => G.add_edge (lookupD row g.source_column_name)
        (lookupD row g.target_column_name) row)
      (fun G row r2 h => edgeHasAttrs_add_edge G _ _ _ _ _ row h)
      (fun G row => edgeHasAttrs_add_edge_self G _ _ row)
      g.edges.rows _ r hr

theorem as_networkx_graph_row_attrs_witness :
    nodeHasAttrs idAttrT.as_networkx_graph (Val.i 1) ["id", "a"] :=
  (as_networkx_graph_row_attrs idAttrT).1 [("id", .i 1), ("a", .i 5)] (by decide)

/-- C4 counterexample: at `idAttrT`, the materialized node keyed `1`
has an attribute entry named "id" — the node-id column is NOT excluded
from the node attribute map — and the materialized edge's attribute
map has entries named "s" and "t" — the endpoint columns are NOT
excluded either. -/
theorem as_networkx_graph_keeps_key_columns :
    (∃ p ∈ idAttrT.as_networkx_graph.nodes, p.1 = Val.i 1 ∧ "id" ∈ keysOf p.2) ∧
    (∃ e ∈ idAttrT.as_networkx_graph.edges, "s" ∈ keysOf e.2.2 ∧ "t" ∈ keysOf e.2.2) :=
  ⟨by decide, by decide⟩

/-- C9 (code bug): when an edge attribute collides with only one of
the two configured endpoint column names, the other temporary endpoint
column is never renamed and `create_from_networkx_graph` fails with a
missing-column schema error instead of producing the claimed table;
when attributes collide with both names, the drop-and-rename works as
described (endpoints land in the configured columns, colliding
attributes are gone). -/
theorem collision_rename_one_sided_failure :
    create_from_networkx_graph oneSidedCollisionG "source" "target" "id" =
      .error (.schemaError "edges" "target" ["source", tempTargetName]) ∧
    (create_from_networkx_graph twoSidedCollisionG "source" "target" "id").map
      (fun g => (g.edges.cols, g.edges.colValues "source", g.edges.colValues "target")) =
      .ok (["source", "target"], [.i 1], [.i 2]) :=
  ⟨by decide, by decide⟩

theorem lookup_map_keys (f : ColName → Val) :
    ∀ (keys : List ColName) (c : ColName), c ∈ keys →
      (keys.map (fun k => (k, f k))).lookup c = some (f c)
  | k :: ks, c, h => by
      by_cases hc : c = k
      · subst hc
        simp [List.lookup]
      · have h2 : c ∈ ks := by
          rcases List.mem_cons.mp h with h1 | h1
          · exact absurd h1 hc
          · exact h1
        have hb : (c == k) = false := beq_eq_false_iff_ne.mpr hc
        simp only [List.map_cons, List.lookup, hb]
        exact lookup_map_keys f ks c h2

theorem lookup_cons_pair (c k : ColName) (v : Val) (l : Attrs) :
    ((k, v) :: l).lookup c = if c = k then some v else l.lookup c := by
  simp only [List.lookup]
  by_cases h : c = k
  · rw [show (c == k) = true from beq_iff_eq.mpr h, if_pos h]
  · rw [show (c == k) = false from beq_eq_false_iff_ne.mpr h, if_neg h]

theorem lookup_filter_ne (x c : ColName) (hx : c ≠ x) :
    ∀ l : Attrs, (l.filter (fun p => p.1 ≠ x)).lookup c = l.lookup c
  | [] => rfl
  | (k, v) :: l => by
      rw [List.filter_cons, lookup_cons_pair]
      by_cases hpx : k = x
      · rw [if_neg (by simp [hpx]), if_neg (by simp [hpx ▸ hx]),
          lookup_filter_ne x c hx l]
      · rw [if_pos (by simp [hpx]), lookup_cons_pair]
        by_cases hcp : c = k
        · rw [if_pos (by simp [hcp]), if_pos (by simp [hcp])]
        · rw [if_neg (by simp [hcp]), if_neg (by simp [hcp]),
            lookup_filter_ne x c hx l]

theorem mem_insertKeys (c : ColName) :
    ∀ (r : Attrs) (acc : List ColName),
      c ∈ insertKeys acc r ↔ c ∈ acc ∨ c ∈ keysOf r
  | [], acc => by simp [insertKeys, keysOf]
  | p :: r, acc => by
      have ih := mem_insertKeys c r (if p.1 ∈ acc then acc else acc ++ [p.1])
      have hstep : insertKeys acc (p :: r) =
          insertKeys (if p.1 ∈ acc then acc else acc ++ [p.1]) r := rfl
      rw [hstep, ih]
      by_cases hp : p.1 ∈ acc
      · simp only [hp, if_true, keysOf, List.map_cons]
        constructor
        · rintro (h | h)
          · exact Or.inl h
          · exact Or.inr (List.mem_cons_of_mem _ h)
        · rintro (h | h)
          · exact Or.inl h
          · rcases List.mem_cons.mp h with rfl | h2
            · exact Or.inl hp
            · exact Or.inr h2
      · simp only [hp, if_false, keysOf, List.map_cons, List.mem_append,
          List.mem_singleton, List.mem_cons, List.not_mem_nil, or_false, or_assoc]

theorem mem_unionKeys_aux (c : ColName) :
    ∀ (rows : List Attrs) (acc : List ColName),
      c ∈ rows.foldl insertKeys acc ↔ c ∈ acc ∨ ∃ r ∈ rows, c ∈ keysOf r
  | [], acc => by simp
  | r :: rows, acc => by
      have ih := mem_unionKeys_aux c rows (insertKeys acc r)
      rw [List.foldl_cons, ih, mem_insertKeys]
      simp [or_assoc]

theorem mem_unionKeys (c : ColName) (rows : List Attrs) :
    c ∈ unionKeys rows ↔ ∃ r ∈ rows, c ∈ keysOf r := by
  have h := mem_unionKeys_aux c rows []
  simpa [unionKeys] using h

theorem lookup_nodes_row (nid : ColName) (h2 : nid ≠ "index") (h3 : nid ≠ PLACEHOLDER)
    (keys : List ColName) (hk : nid ∈ keys) (idv : Val) (a : Attrs) :
    lookupD (((("index", idv) :: keys.map (fun k => (k, lookupD a k))).filter
        (fun p => p.1 ≠ PLACEHOLDER)).filter (fun p => p.1 ≠ "index")) nid =
      lookupD a nid := by
  unfold lookupD
  rw [lookup_filter_ne "index" nid h2, lookup_filter_ne PLACEHOLDER nid h3,
    lookup_cons_pair, if_neg h2, lookup_map_keys _ keys nid hk]
  rfl

theorem lookup_nodes_row_noP (nid : ColName) (h2 : nid ≠ "index")
    (keys : List ColName) (hk : nid ∈ keys) (idv : Val) (a : Attrs) :
    lookupD ((("index", idv) :: keys.map (fun k => (k, lookupD a k))).filter
        (fun p => p.1 ≠ "index")) nid = lookupD a nid := by
  unfold lookupD
  rw [lookup_filter_ne "index" nid h2, lookup_cons_pair, if_neg h2,
    lookup_map_keys _ keys nid hk]
  rfl

theorem lookupD_placeholder_adjust (nid : ColName) (h3 : nid ≠ PLACEHOLDER) (a : Attrs) :
    lookupD (if a.isEmpty then [(PLACEHOLDER, DUMMY)] else a) nid = lookupD a nid := by
  cases a with
  | nil =>
      have hb : (nid == PLACEHOLDER) = false := beq_eq_false_iff_ne.mpr h3
      simp [lookupD, List.lookup, hb]
  | cons p l => rfl

/-- C10: if some node of the graph object carries an attribute named
exactly like the configured node-id column, `create_from_networkx_graph`
drops the extracted "index" column (which holds the actual node
identifiers) and keeps the colliding attribute column as the node-id
column, so the resulting nodes table's id column contains the
attribute values (NaN where a node lacks the attribute), not the node
identifiers.  The last two conjuncts exhibit this end to end at
`idCollisionG`, whose node identifiers are 1 and 2 but whose rebuilt
id column holds the attribute values 999 and 888. -/
theorem build_nodes_table_id_collision (G : NxGraph) (nid : ColName)
    (h1 : ∃ p ∈ G.nodes, nid ∈ keysOf p.2)
    (h2 : nid ≠ "index") (h3 : nid ≠ PLACEHOLDER) :
    "index" ∉ (build_nodes_table G nid).cols ∧
    nid ∈ (build_nodes_table G nid).cols ∧
    (build_nodes_table G nid).colValues nid =
      G.nodes.map (fun p => lookupD p.2 nid) ∧
    (create_from_networkx_graph idCollisionG "source" "target" "id").map
      (fun g => g.nodes.colValues "id") = .ok [.i 999, .i 888] ∧
    idCollisionG.nodes.map Prod.fst = [.i 1, .i 2] := by
  have hkeys : nid ∈ unionKeys ((G.nodes.map (fun p =>
      (p.1, if p.2.isEmpty then [(PLACEHOLDER, DUMMY)] else p.2))).map (fun p => p.2)) := by
    rcases h1 with ⟨p, hp, hpk⟩
    have hne : p.2.isEmpty = false := by
      cases hq : p.2 with
      | nil => rw [hq] at hpk; simp [keysOf] at hpk
      | cons a l => rfl
    refine (mem_unionKeys _ _).mpr
      ⟨if p.2.isEmpty then [(PLACEHOLDER, DUMMY)] else p.2, ?_, ?_⟩
    · rw [List.map_map]
      exact List.mem_map_of_mem _ hp
    · simpa [hne] using hpk
  have hmain : "index" ∉ (build_nodes_table G nid).cols ∧
      nid ∈ (build_nodes_table G nid).cols ∧
      (build_nodes_table G nid).colValues nid =
        G.nodes.map (fun p => lookupD p.2 nid) := by
    simp only [build_nodes_table]
    split
    · -- the placeholder column is present and gets dropped first
      have hcond : nid ∈ ((⟨"index" :: unionKeys ((G.nodes.map (fun p =>
          (p.1, if p.2.isEmpty then [(PLACEHOLDER, DUMMY)] else p.2))).map (fun p => p.2)),
          (G.nodes.map (fun p =>
            (p.1, if p.2.isEmpty then [(PLACEHOLDER, DUMMY)] else p.2))).map (fun p =>
            ("index", p.1) :: (unionKeys ((G.nodes.map (fun p =>
              (p.1, if p.2.isEmpty then [(PLACEHOLDER, DUMMY)] else p.2))).map
                (fun p => p.2))).map (fun k => (k, lookupD p.2 k)))⟩ : Table).dropCol
            PLACEHOLDER).cols := by
        simp only [Table.dropCol]
        exact List.mem_filter.mpr ⟨List.mem_cons_of_mem _ hkeys, by simp [h3]⟩
      rw [if_pos hcond]
      refine ⟨?_, ?_, ?_⟩
      · simp [Table.dropCol, List.mem_filter]
      · simp only [Table.dropCol]
        exact List.mem_filter.mpr
          ⟨List.mem_filter.mpr ⟨List.mem_cons_of_mem _ hkeys, by simp [h3]⟩, by simp [h2]⟩
      · simp only [Table.colValues, Table.dropCol, List.map_map]
        refine List.map_congr_left (fun q hq => ?_)
        have hrow := lookup_nodes_row nid h2 h3 _ hkeys q.1
          (if q.2.isEmpty then [(PLACEHOLDER, DUMMY)] else q.2)
        have hadj := lookupD_placeholder_adjust nid h3 q.2
        simpa using hrow.trans hadj
    · -- no placeholder column to drop
      have hcond : nid ∈ (⟨"index" :: unionKeys ((G.nodes.map (fun p =>
          (p.1, if p.2.isEmpty then [(PLACEHOLDER, DUMMY)] else p.2))).map (fun p => p.2)),
          (G.nodes.map (fun p =>
            (p.1, if p.2.isEmpty then [(PLACEHOLDER, DUMMY)] else p.2))).map (fun p =>
            ("index", p.1) :: (unionKeys ((G.nodes.map (fun p =>
              (p.1, if p.2.isEmpty then [(PLACEHOLDER, DUMMY)] else p.2))).map
                (fun p => p.2))).map (fun k => (k, lookupD p.2 k)))⟩ : Table).cols :=
        List.mem_cons_of_mem _ hkeys
      rw [if_pos hcond]
      refine ⟨?_, ?_, ?_⟩
      · simp [Table.dropCol, List.mem_filter]
      · simp only [Table.dropCol]
        exact List.mem_filter.mpr ⟨List.mem_cons_of_mem _ hkeys, by simp [h2]⟩
      · simp only [Table.colValues, Table.dropCol, List.map_map]
        refine List.map_congr_left (fun q hq => ?_)
        have hrow := lookup_nodes_row_noP nid h2 _ hkeys q.1
          (if q.2.isEmpty then [(PLACEHOLDER, DUMMY)] else q.2)
        have hadj := lookupD_placeholder_adjust nid h3 q.2
        simpa using hrow.trans hadj
  exact ⟨hmain.1, hmain.2.1, hmain.2.2, by decide, by decide⟩

theorem build_nodes_table_id_collision_witness :
    "index" ∉ (build_nodes_table idCollisionG "id").cols ∧
    (build_nodes_table idCollisionG "id").colValues "id" =
      idCollisionG.nodes.map (fun p => lookupD p.2 "id") :=
  ⟨(build_nodes_table_id_collision idCollisionG "id" (by decide) (by decide) (by decide)).1,
   (build_nodes_table_id_collision idCollisionG "id" (by decide) (by decide)
     (by decide)).2.2.1⟩

end Tropy
